import Mathlib

/-!
Verification of the container-reconciliation core of the arista.cvp Ansible
collection (`cv_container_v3.py`, `cv_device_v3.py`, `generic_tools.py`)
against its natural-language specification.

The remote CloudVision server is modelled as an explicit environment `Env`
threaded through every function: a `CvpState` (root-container name plus the
list of existing container names), a fault schedule (one boolean per remote
call; `true` means the underlying `cvprac` call raises an exception), and a
trace of the remote calls issued.  Python exceptions that escape a function
are modelled with `Except`; a bare `except:` handler corresponds to the
`ApiResp.raise` branch being mapped back to a normal value.
-/

set_option maxHeartbeats 1000000

namespace AnsibleCvp

/-- One entry of the user topology.  The reconciliation code only ever reads
the `parent_container` field of an entry. -/
structure ContainerSpec where
  parent_container : String
deriving DecidableEq, Repr, Inhabited

/-- The user topology: a Python `dict` mapping container names to specs,
modelled as an association list in the dict's insertion order. -/
abbrev UserTopology := List (String × ContainerSpec)

/-- Dictionary access `container_list[container]["parent_container"]`. -/
def lookupParent (topo : UserTopology) (name : String) : String :=
  ((topo.lookup name).getD default).parent_container

/-- Python comparison `parent == container_root_name` where the root name may
be `None` (after a failed `container_get_root`): a string never equals
`None`. -/
def matchesRoot (root : Option String) (parent : String) : Bool :=
  match root with
  | some r => parent == r
  | none => false

/-- One iteration of the `for container in container_list` body inside
`list_container_from_top` (lines 161-165): append the container when its
parent is the root name, then (on the updated list) append it again when its
parent already appears in the result list. -/
def lcft_pass (topo : UserTopology) (root : Option String) :
    List String → List String → List String
  | [], acc => acc
  | name :: rest, acc =>
    let acc1 := if matchesRoot root (lookupParent topo name) then acc ++ [name] else acc
    let acc2 := if acc1.contains (lookupParent topo name) then acc1 ++ [name] else acc1
    lcft_pass topo root rest acc2

/-- The `while(len(result_list) < len(container_list)+1)` loop of
`list_container_from_top` (line 159), with explicit fuel: `none` means the
fuel ran out with the guard still true, i.e. the Python loop is still
running. -/
def lcft_loop (topo : UserTopology) (root : Option String) :
    Nat → List String → Option (List String)
  | 0, _ => none
  | fuel + 1, acc =>
    if acc.length < topo.length + 1 then
      lcft_loop topo root fuel (lcft_pass topo root (topo.map Prod.fst) acc)
    else
      some acc

/-- Embedding of `list_container_from_top` (lines 156-166). -/
def list_container_from_top (fuel : Nat) (topo : UserTopology) (root : Option String) :
    Option (List String) :=
  lcft_loop topo root fuel []

/-- The remote CloudVision provisioning state: the root container name and
the names of the containers that currently exist. -/
structure CvpState where
  root : String
  containers : List String
deriving DecidableEq, Repr, Inhabited

/-- A remote call issued through the `cvprac` client. -/
inductive ApiCall where
  | getContainerByName (name : String)
  | filterTopology (node : String)
  | addContainer (name : String)
deriving DecidableEq, Repr

/-- The environment threaded through the module: remote state, fault
schedule (head entry consumed by the next remote call; `true` = the call
raises), and the trace of calls issued so far. -/
structure Env where
  state : CvpState
  faults : List Bool
  calls : List ApiCall
deriving DecidableEq, Repr, Inhabited

/-- Append entries to the call trace of an environment. -/
def addedCalls (e : Env) (l : List ApiCall) : Env :=
  { e with calls := e.calls ++ l }

/-- Outcome of one `cvprac` call: a returned value or a raised exception. -/
inductive ApiResp (α : Type) where
  | ok (val : α)
  | raise
deriving DecidableEq, Repr

/-- The record returned by `get_container_by_name`: the code only reads its
`key` field; the key of a container is modelled as its name. -/
structure CvContainer where
  key : String
deriving DecidableEq, Repr

/-- Semantics of `cv_connection.api.get_container_by_name(name=...)`: consume
one fault-schedule entry; on no fault, return the container record when the
name exists remotely and `None` otherwise. -/
def api_get_container_by_name (e : Env) (name : String) :
    ApiResp (Option CvContainer) × Env :=
  let f := e.faults.headD false
  let e2 : Env := { e with faults := e.faults.tail,
                           calls := e.calls ++ [ApiCall.getContainerByName name] }
  if f then (ApiResp.raise, e2)
  else if e2.state.containers.contains name then (ApiResp.ok (some ⟨name⟩), e2)
  else (ApiResp.ok none, e2)

/-- Semantics of `cv_connection.api.filter_topology(node_id='root')` as used
by `container_get_root`: on no fault, report the root container name. -/
def api_filter_topology_root (e : Env) : ApiResp String × Env :=
  let f := e.faults.headD false
  let e2 : Env := { e with faults := e.faults.tail,
                           calls := e.calls ++ [ApiCall.filterTopology "root"] }
  if f then (ApiResp.raise, e2)
  else (ApiResp.ok e2.state.root, e2)

/-- Payload of a successful `add_container` response. -/
structure AddData where
  status : String
  taskIds : List String
deriving DecidableEq, Repr

/-- The `add_container` response dictionary (`resp['data']`). -/
structure AddContainerResp where
  data : AddData
deriving DecidableEq, Repr

/-- Semantics of `cv_connection.api.add_container(...)`: on no fault, the
container is appended to the remote state and a `success` response with one
task id is returned; on a fault the call raises and the state is
unchanged. -/
def api_add_container (e : Env) (name : String) : ApiResp AddContainerResp × Env :=
  let f := e.faults.headD false
  let e2 : Env := { e with faults := e.faults.tail,
                           calls := e.calls ++ [ApiCall.addContainer name] }
  if f then (ApiResp.raise, e2)
  else (ApiResp.ok ⟨⟨"success", ["task-" ++ name]⟩⟩,
        { e2 with state := { e2.state with containers := e2.state.containers ++ [name] } })

/-- Embedding of `is_container_exist` (lines 77-99): `True` when the lookup
returns a record, `False` when it returns `None` or raises (bare `except`
returns `False`). -/
def is_container_exist (e : Env) (container : String) : Bool × Env :=
  match api_get_container_by_name e container with
  | (ApiResp.raise, e1) => (false, e1)
  | (ApiResp.ok (some _), e1) => (true, e1)
  | (ApiResp.ok none, e1) => (false, e1)

/-- Embedding of `container_get_root` (lines 102-123): `None` when the
topology lookup raises, the root container name otherwise. -/
def container_get_root (e : Env) : Option String × Env :=
  match api_filter_topology_root e with
  | (ApiResp.raise, e1) => (none, e1)
  | (ApiResp.ok nm, e1) => (some nm, e1)

/-- Embedding of `container_get_id` (lines 126-153).  On an exception from
`get_container_by_name`, `result` keeps its initial value `dict()`, which is
not `None`, so line 152 evaluates `{}['key']` and raises an uncaught
`KeyError`; this is the `Except.error` branch. -/
def container_get_id (e : Env) (container : String) :
    Except String (Option String) × Env :=
  match api_get_container_by_name e container with
  | (ApiResp.raise, e1) => (Except.error "KeyError", e1)
  | (ApiResp.ok (some c), e1) => (Except.ok (some c.key), e1)
  | (ApiResp.ok none, e1) => (Except.ok none, e1)

/-- The `taskIDs` field of a `container_create` result: the sentinel string
`'UNSET'` or a list of task ids. -/
inductive TaskIds where
  | unset
  | ids (l : List String)
deriving DecidableEq, Repr

/-- The dictionary returned by `container_create`. -/
structure CreateResult where
  success : Bool
  taskIDs : TaskIds
  container : String
deriving DecidableEq, Repr

/-- Embedding of `container_create` (lines 172-222).  When the parent
exists, the function returns `success := true` at line 219 regardless of the
outcome of `add_container` (exception swallowed at line 213, non-success
status leaves `taskIds` at `'UNSET'`); in check mode the create call is
skipped entirely.  An exception escaping `container_get_id` propagates
(`Except.error`).  When the parent is missing it returns
`success := false`. -/
def container_create (e : Env) (check_mode : Bool) (container parent : String) :
    Except String CreateResult × Env :=
  match is_container_exist e parent with
  | (true, e1) =>
    match container_get_id e1 parent with
    | (Except.error msg, e2) => (Except.error msg, e2)
    | (Except.ok _parent_id, e2) =>
      if check_mode then
        (Except.ok ⟨true, TaskIds.unset, container⟩, e2)
      else
        match api_add_container e2 container with
        | (ApiResp.raise, e3) => (Except.ok ⟨true, TaskIds.unset, container⟩, e3)
        | (ApiResp.ok resp, e3) =>
          if resp.data.status == "success" then
            (Except.ok ⟨true, TaskIds.ids resp.data.taskIds, container⟩, e3)
          else
            (Except.ok ⟨true, TaskIds.unset, container⟩, e3)
  | (false, e1) => (Except.ok ⟨false, TaskIds.unset, container⟩, e1)

/-- The dictionary returned by `manager_containers_create`. -/
structure ManagerResult where
  count_new_containers : Nat
  list_new_containers : List String
deriving DecidableEq, Repr

/-- The per-container loop of `manager_containers_create` (lines 258-270):
for each name in the resolved order, check the parent exists, check the
container does not yet exist, call `container_create`, and count the result
when `success is True`.  An exception escaping `container_create` is not
caught and aborts the loop (`Except.error`). -/
def manager_loop (check_mode : Bool) (topo : UserTopology) :
    List String → Env → Nat → List String → Except String ManagerResult × Env
  | [], e, cnt, created => (Except.ok ⟨cnt, created⟩, e)
  | name :: rest, e, cnt, created =>
    match is_container_exist e (lookupParent topo name) with
    | (true, e1) =>
      match is_container_exist e1 name with
      | (false, e2) =>
        match container_create e2 check_mode name (lookupParent topo name) with
        | (Except.error msg, e3) => (Except.error msg, e3)
        | (Except.ok res, e3) =>
          if res.success then
            manager_loop check_mode topo rest e3 (cnt + 1) (created ++ [name])
          else
            manager_loop check_mode topo rest e3 cnt created
      | (true, e2) => manager_loop check_mode topo rest e2 cnt created
    | (false, e1) => manager_loop check_mode topo rest e1 cnt created

/-- Embedding of `manager_containers_create` (lines 229-271): fetch the root
container name, order the user topology with `list_container_from_top`, then
run the per-container loop.  `none` means `list_container_from_top` never
terminated. -/
def manager_containers_create (fuel : Nat) (check_mode : Bool)
    (topo : UserTopology) (e : Env) :
    Option (Except String ManagerResult × Env) :=
  let rootAndEnv := container_get_root e
  match list_container_from_top fuel topo rootAndEnv.1 with
  | none => none
  | some order => some (manager_loop check_mode topo order rootAndEnv.2 0 [])

/-- Outcome of a module `__main__` block, up to input validation. -/
inductive MainOutcome where
  | failJson (msg : String)
  | proceeded
deriving DecidableEq, Repr

/-- Embedding of the `__main__` block of `cv_device_v3.py` (lines 109-141).
Modelled from the spec: `DeviceInventory.is_valid`
(`module_utils/device_tools.py` is not among the sources) is taken as the
schema-validation verdict on the user input, true exactly when the input
passes schema validation.  The control flow is from the source: fail on
`state == absent`, then `check_import`, then line 139
`if user_topology.is_valid: fail_json('... not valid ...')`. -/
def cv_device_v3_main (has_cvprac has_jsonschema state_absent is_valid : Bool) :
    MainOutcome :=
  if state_absent then
    MainOutcome.failJson "State==absent is not yet supported !"
  else if has_cvprac == false then
    MainOutcome.failJson "cvprac required for this module. Please install using pip install cvprac"
  else if !has_jsonschema then
    MainOutcome.failJson "JSONSCHEMA is required. Please install using pip install jsonschema"
  else if is_valid then
    MainOutcome.failJson "Error, your input is not valid against current schema"
  else MainOutcome.proceeded

/-- The parameter names declared in the `argument_spec` of
`cv_container_v3.py` (lines 279-287); `ANSIBLE_MODULE.params` holds exactly
these keys. -/
def cv_container_v3_params : List String :=
  ["topology", "cvp_facts", "configlet_filter", "mode"]

/-- Embedding of the `__main__` block of `cv_container_v3.py` (lines
275-303) up to schema validation.  Modelled from the spec:
`schema.validate_cv_inputs` (`module_utils/schema.py` is not among the
sources) is taken as the schema-validation verdict `validates`.  When
validation fails, line 302 reads `ANSIBLE_MODULE.params['configlets']`,
which is not a declared parameter, so the dictionary access raises
`KeyError` before `fail_json` on line 303 is reached. -/
def cv_container_v3_main (has_cvprac has_jsonschema validates : Bool) :
    Except String MainOutcome :=
  if has_cvprac == false then
    Except.ok (MainOutcome.failJson "cvprac required for this module. Please install using pip install cvprac")
  else if !has_jsonschema then
    Except.ok (MainOutcome.failJson "JSONSCHEMA is required. Please install using pip install jsonschema")
  else if !validates then
    if cv_container_v3_params.contains "configlets" then
      Except.ok (MainOutcome.failJson "Container input data are not compliant with module.")
    else
      Except.error "KeyError"
  else Except.ok MainOutcome.proceeded

/-- Scenario A topology: `{Fabric: {parent: Tenant}, Spines: {parent: Fabric}}`. -/
def topoA : UserTopology :=
  [("Fabric", ⟨"Tenant"⟩), ("Spines", ⟨"Fabric"⟩)]

/-- Scenario C topology: `{Orphan: {parent: Ghost}}` with `Ghost` neither the
root name nor a key. -/
def orphanTopo : UserTopology :=
  [("Orphan", ⟨"Ghost"⟩)]

/-- A fault-free remote state holding only the root container `Tenant`. -/
def env0 : Env :=
  ⟨⟨"Tenant", ["Tenant"]⟩, [], []⟩

/-- Single-container topology used to exhibit a failing create. -/
def topoC3 : UserTopology :=
  [("Fabric", ⟨"Tenant"⟩)]

/-- Remote state for the failing-create scenario: only the root exists and
the fault schedule makes exactly the two `add_container` calls (the sixth
and eleventh remote calls of the run) raise. -/
def envC3 : Env :=
  ⟨⟨"Tenant", ["Tenant"]⟩,
   [false, false, false, false, false, true, false, false, false, false, true], []⟩

/-- Two-container topology used to exhibit the `KeyError` abort. -/
def topoC4 : UserTopology :=
  [("Fabric", ⟨"Tenant"⟩), ("Spines", ⟨"Tenant"⟩)]

/-- Remote state for the `KeyError` scenario: the fifth remote call — the
`get_container_by_name` issued by `container_get_id` on the parent — raises,
after the earlier existence check on the same parent succeeded. -/
def envC4 : Env :=
  ⟨⟨"Tenant", ["Tenant"]⟩, [false, false, false, false, true], []⟩

/-- Final environment of a run (`default` when the ordering resolver never
terminated). -/
def runEnv (o : Option (Except String ManagerResult × Env)) : Env :=
  match o with
  | some (_, e) => e
  | none => default

/-- The environment produced by a first complete run of the manager on
`topoA` from `env0`. -/
def c6_e1 : Env := runEnv (manager_containers_create 5 false topoA env0)

/-! Structural invariant of the ordering resolver: every element is appended
only when its parent matches the root name or already occurs earlier in the
list.  `Ordered topo root pre suf` reads: assuming the names of `pre` are
already placed, the list `suf` extends them respecting parent order. -/

inductive Ordered (topo : UserTopology) (root : Option String) :
    List String → List String → Prop where
  | nil : ∀ pre, Ordered topo root pre []
  | cons : ∀ pre x suf,
      (matchesRoot root (lookupParent topo x) = true ∨ lookupParent topo x ∈ pre) →
      Ordered topo root (pre ++ [x]) suf → Ordered topo root pre (x :: suf)

/-! Basic facts about the call-trace helper. -/

@[simp] theorem addedCalls_state (e : Env) (l : List ApiCall) :
    (addedCalls e l).state = e.state := rfl

@[simp] theorem addedCalls_faults (e : Env) (l : List ApiCall) :
    (addedCalls e l).faults = e.faults := rfl

@[simp] theorem addedCalls_calls (e : Env) (l : List ApiCall) :
    (addedCalls e l).calls = e.calls ++ l := rfl

/-! Fault-free characterizations of the primitive operations: when the fault
schedule is empty, every remote call succeeds and only extends the call
trace (and, for `add_container`, the remote container list). -/

theorem is_exist_of_nil_mem (e : Env) (n : String) (h : e.faults = [])
    (hm : n ∈ e.state.containers) :
    is_container_exist e n =
      (true, addedCalls e [ApiCall.getContainerByName n]) := by
  obtain ⟨st, f, cl⟩ := e
  simp only at h hm
  subst h
  simp [is_container_exist, api_get_container_by_name, addedCalls, hm]

theorem is_exist_of_nil_not_mem (e : Env) (n : String) (h : e.faults = [])
    (hm : n ∉ e.state.containers) :
    is_container_exist e n =
      (false, addedCalls e [ApiCall.getContainerByName n]) := by
  obtain ⟨st, f, cl⟩ := e
  simp only at h hm
  subst h
  simp [is_container_exist, api_get_container_by_name, addedCalls, hm]

theorem get_id_of_nil_mem (e : Env) (n : String) (h : e.faults = [])
    (hm : n ∈ e.state.containers) :
    container_get_id e n =
      (Except.ok (some n), addedCalls e [ApiCall.getContainerByName n]) := by
  obtain ⟨st, f, cl⟩ := e
  simp only at h hm
  subst h
  simp [container_get_id, api_get_container_by_name, addedCalls, hm]

theorem get_root_of_nil (e : Env) (h : e.faults = []) :
    container_get_root e =
      (some e.state.root, addedCalls e [ApiCall.filterTopology "root"]) := by
  obtain ⟨st, f, cl⟩ := e
  simp only at h
  subst h
  simp [container_get_root, api_filter_topology_root, addedCalls]

theorem create_of_nil_parent_absent (e : Env) (cm : Bool) (c p : String)
    (h : e.faults = []) (hp : p ∉ e.state.containers) :
    container_create e cm c p =
      (Except.ok ⟨false, TaskIds.unset, c⟩,
       addedCalls e [ApiCall.getContainerByName p]) := by
  rw [container_create, is_exist_of_nil_not_mem e p h hp]

theorem create_of_nil_check (e : Env) (c p : String)
    (h : e.faults = []) (hp : p ∈ e.state.containers) :
    container_create e true c p =
      (Except.ok ⟨true, TaskIds.unset, c⟩,
       addedCalls e [ApiCall.getContainerByName p, ApiCall.getContainerByName p]) := by
  obtain ⟨st, f, cl⟩ := e
  simp only at h hp
  subst h
  simp [container_create, is_container_exist, container_get_id,
        api_get_container_by_name, addedCalls, hp]

theorem create_of_nil_real (e : Env) (c p : String)
    (h : e.faults = []) (hp : p ∈ e.state.containers) :
    container_create e false c p =
      (Except.ok ⟨true, TaskIds.ids ["task-" ++ c], c⟩,
       Env.mk ⟨e.state.root, e.state.containers ++ [c]⟩ e.faults
         (e.calls ++ [ApiCall.getContainerByName p, ApiCall.getContainerByName p,
                      ApiCall.addContainer c])) := by
  obtain ⟨⟨rt, cs⟩, f, cl⟩ := e
  simp only at h hp
  subst h
  simp [container_create, is_container_exist, container_get_id,
        api_get_container_by_name, api_add_container, addedCalls, hp]

/-! Fault-free single steps of the per-container loop of
`manager_containers_create`. -/

theorem manager_step_parent_absent (cm : Bool) (topo : UserTopology)
    (name : String) (rest : List String) (e : Env) (cnt : Nat) (created : List String)
    (h : e.faults = []) (hp : lookupParent topo name ∉ e.state.containers) :
    manager_loop cm topo (name :: rest) e cnt created =
      manager_loop cm topo rest
        (addedCalls e [ApiCall.getContainerByName (lookupParent topo name)]) cnt created := by
  rw [manager_loop, is_exist_of_nil_not_mem e _ h hp]

theorem manager_step_exists (cm : Bool) (topo : UserTopology)
    (name : String) (rest : List String) (e : Env) (cnt : Nat) (created : List String)
    (h : e.faults = []) (hp : lookupParent topo name ∈ e.state.containers)
    (hc : name ∈ e.state.containers) :
    manager_loop cm topo (name :: rest) e cnt created =
      manager_loop cm topo rest
        (addedCalls e [ApiCall.getContainerByName (lookupParent topo name),
                       ApiCall.getContainerByName name]) cnt created := by
  rw [manager_loop, is_exist_of_nil_mem e _ h hp]
  dsimp only
  have h1 : (addedCalls e [ApiCall.getContainerByName (lookupParent topo name)]).faults = [] := by
    simp [h]
  have hc1 : name ∈ (addedCalls e
      [ApiCall.getContainerByName (lookupParent topo name)]).state.containers := by
    simpa using hc
  rw [is_exist_of_nil_mem _ name h1 hc1]
  simp [addedCalls]

theorem manager_step_create_real (topo : UserTopology)
    (name : String) (rest : List String) (e : Env) (cnt : Nat) (created : List String)
    (h : e.faults = []) (hp : lookupParent topo name ∈ e.state.containers)
    (hc : name ∉ e.state.containers) :
    manager_loop false topo (name :: rest) e cnt created =
      manager_loop false topo rest
        (Env.mk ⟨e.state.root, e.state.containers ++ [name]⟩ e.faults
          (e.calls ++ [ApiCall.getContainerByName (lookupParent topo name),
                       ApiCall.getContainerByName name,
                       ApiCall.getContainerByName (lookupParent topo name),
                       ApiCall.getContainerByName (lookupParent topo name),
                       ApiCall.addContainer name]))
        (cnt + 1) (created ++ [name]) := by
  rw [manager_loop, is_exist_of_nil_mem e _ h hp]
  dsimp only
  have h1 : (addedCalls e [ApiCall.getContainerByName (lookupParent topo name)]).faults = [] := by
    simp [h]
  have hc1 : name ∉ (addedCalls e
      [ApiCall.getContainerByName (lookupParent topo name)]).state.containers := by
    simpa using hc
  rw [is_exist_of_nil_not_mem _ name h1 hc1]
  dsimp only
  have h2 : (addedCalls (addedCalls e [ApiCall.getContainerByName (lookupParent topo name)])
      [ApiCall.getContainerByName name]).faults = [] := by simp [h]
  have hp2 : lookupParent topo name ∈ (addedCalls (addedCalls e
      [ApiCall.getContainerByName (lookupParent topo name)])
      [ApiCall.getContainerByName name]).state.containers := by simpa using hp
  rw [create_of_nil_real _ name _ h2 hp2]
  simp [addedCalls, h]

theorem manager_step_create_check (topo : UserTopology)
    (name : String) (rest : List String) (e : Env) (cnt : Nat) (created : List String)
    (h : e.faults = []) (hp : lookupParent topo name ∈ e.state.containers)
    (hc : name ∉ e.state.containers) :
    manager_loop true topo (name :: rest) e cnt created =
      manager_loop true topo rest
        (addedCalls e [ApiCall.getContainerByName (lookupParent topo name),
                       ApiCall.getContainerByName name,
                       ApiCall.getContainerByName (lookupParent topo name),
                       ApiCall.getContainerByName (lookupParent topo name)])
        (cnt + 1) (created ++ [name]) := by
  rw [manager_loop, is_exist_of_nil_mem e _ h hp]
  dsimp only
  have h1 : (addedCalls e [ApiCall.getContainerByName (lookupParent topo name)]).faults = [] := by
    simp [h]
  have hc1 : name ∉ (addedCalls e
      [ApiCall.getContainerByName (lookupParent topo name)]).state.containers := by
    simpa using hc
  rw [is_exist_of_nil_not_mem _ name h1 hc1]
  dsimp only
  have h2 : (addedCalls (addedCalls e [ApiCall.getContainerByName (lookupParent topo name)])
      [ApiCall.getContainerByName name]).faults = [] := by simp [h]
  have hp2 : lookupParent topo name ∈ (addedCalls (addedCalls e
      [ApiCall.getContainerByName (lookupParent topo name)])
      [ApiCall.getContainerByName name]).state.containers := by simpa using hp
  rw [create_of_nil_check _ name _ h2 hp2]
  simp [addedCalls]

theorem ordered_snoc (topo : UserTopology) (root : Option String)
    (pre suf : List String) (y : String)
    (hord : Ordered topo root pre suf)
    (hy : matchesRoot root (lookupParent topo y) = true ∨ lookupParent topo y ∈ pre ++ suf) :
    Ordered topo root pre (suf ++ [y]) := by
  induction hord with
  | nil pre =>
    refine Ordered.cons pre y [] ?_ (Ordered.nil (pre ++ [y]))
    simpa using hy
  | cons pre x suf hx htail ih =>
    refine Ordered.cons pre x (suf ++ [y]) hx (ih ?_)
    rcases hy with hy | hy
    · exact Or.inl hy
    · right
      simp only [List.mem_append, List.mem_cons, List.mem_singleton] at hy ⊢
      tauto

theorem pass_ordered (topo : UserTopology) (root : Option String) :
    ∀ (keys acc : List String), Ordered topo root [] acc →
      Ordered topo root [] (lcft_pass topo root keys acc) := by
  intro keys
  induction keys with
  | nil => intro acc h; simpa [lcft_pass] using h
  | cons name rest ih =>
    intro acc h
    rw [lcft_pass]
    apply ih
    by_cases h1 : matchesRoot root (lookupParent topo name) = true
    · simp only [h1, if_true]
      have hacc1 : Ordered topo root [] (acc ++ [name]) :=
        ordered_snoc topo root [] acc name h (Or.inl h1)
      by_cases h2 : (acc ++ [name]).contains (lookupParent topo name)
      · simp only [h2, if_true]
        refine ordered_snoc topo root [] (acc ++ [name]) name hacc1 (Or.inr ?_)
        simpa using (List.elem_iff.mp h2)
      · simp only [h2]
        simpa [h2] using hacc1
    · have h1f : matchesRoot root (lookupParent topo name) = false := by
        revert h1; cases matchesRoot root (lookupParent topo name) <;> simp
      simp only [h1f, Bool.false_eq_true, if_false]
      by_cases h2 : acc.contains (lookupParent topo name)
      · simp only [h2, if_true]
        refine ordered_snoc topo root [] acc name h (Or.inr ?_)
        simpa using (List.elem_iff.mp h2)
      · simp only [h2]
        simpa [h2] using h

theorem loop_ordered (topo : UserTopology) (root : Option String) :
    ∀ (fuel : Nat) (acc l : List String), Ordered topo root [] acc →
      lcft_loop topo root fuel acc = some l → Ordered topo root [] l := by
  intro fuel
  induction fuel with
  | zero => intro acc l _ hl; simp [lcft_loop] at hl
  | succ n ih =>
    intro acc l hacc hl
    rw [lcft_loop] at hl
    by_cases hlen : acc.length < topo.length + 1
    · rw [if_pos hlen] at hl
      exact ih _ l (pass_ordered topo root _ acc hacc) hl
    · rw [if_neg hlen] at hl
      cases hl
      exact hacc

theorem lcft_ordered (fuel : Nat) (topo : UserTopology) (root : Option String)
    (l : List String) (hl : list_container_from_top fuel topo root = some l) :
    Ordered topo root [] l :=
  loop_ordered topo root fuel [] l (Ordered.nil []) hl

/-- Index form of the invariant: each position's parent matches the root
name or occurs at a strictly earlier position. -/
theorem ordered_index (topo : UserTopology) (root : Option String) :
    ∀ (pre suf : List String), Ordered topo root pre suf →
      ∀ (i : Nat) (hi : i < suf.length),
        matchesRoot root (lookupParent topo (suf.get ⟨i, hi⟩)) = true ∨
          lookupParent topo (suf.get ⟨i, hi⟩) ∈ pre ++ suf.take i := by
  intro pre suf hord
  induction hord with
  | nil pre => intro i hi; simp at hi
  | cons pre x suf hx htail ih =>
    intro i hi
    match i with
    | 0 => simpa using hx
    | j + 1 =>
      have hj : j < suf.length := by simpa using Nat.lt_of_succ_lt_succ hi
      rcases ih j hj with hr | hr
      · exact Or.inl hr
      · right
        have heq : pre ++ (x :: suf).take (j + 1) = pre ++ [x] ++ suf.take j := by
          rw [List.take_succ_cons, List.append_assoc]
          rfl
        rw [heq]
        exact hr

/-- Every element the resolver emits is a key of the topology. -/
theorem pass_subset (topo : UserTopology) (root : Option String) :
    ∀ (keys acc : List String) (x : String),
      x ∈ lcft_pass topo root keys acc → x ∈ acc ∨ x ∈ keys := by
  intro keys
  induction keys with
  | nil => intro acc x hx; simp [lcft_pass] at hx; exact Or.inl hx
  | cons name rest ih =>
    intro acc x hx
    rw [lcft_pass] at hx
    rcases ih _ x hx with hx2 | hx2
    · have hgoal : x ∈ acc ∨ x = name := by
        split at hx2 <;> split at hx2 <;>
          · try simp only [List.mem_append, List.mem_singleton] at hx2
            tauto
      rcases hgoal with h3 | h3
      · exact Or.inl h3
      · exact Or.inr (by simp [h3])
    · exact Or.inr (by simp [hx2])

theorem loop_subset (topo : UserTopology) (root : Option String) :
    ∀ (fuel : Nat) (acc l : List String) (x : String),
      lcft_loop topo root fuel acc = some l → x ∈ l →
        x ∈ acc ∨ x ∈ topo.map Prod.fst := by
  intro fuel
  induction fuel with
  | zero => intro acc l x hl; simp [lcft_loop] at hl
  | succ n ih =>
    intro acc l x hl hx
    rw [lcft_loop] at hl
    by_cases hlen : acc.length < topo.length + 1
    · rw [if_pos hlen] at hl
      rcases ih _ l x hl hx with h2 | h2
      · exact pass_subset topo root _ acc x h2
      · exact Or.inr h2
    · rw [if_neg hlen] at hl
      cases hl
      exact Or.inl hx

theorem lcft_subset (fuel : Nat) (topo : UserTopology) (root : Option String)
    (l : List String) (hl : list_container_from_top fuel topo root = some l) :
    ∀ x ∈ l, x ∈ topo.map Prod.fst := by
  intro x hx
  rcases loop_subset topo root fuel [] l x hl hx with h | h
  · simp at h
  · exact h

/-! Global behavior of the per-container loop. -/

/-- When every container of the order already exists remotely, a fault-free
loop issues no create call, counts nothing, and leaves the remote state
unchanged. -/
theorem loop_all_present (cm : Bool) (topo : UserTopology) :
    ∀ (order : List String) (e : Env) (cnt : Nat) (created : List String),
      e.faults = [] → (∀ x ∈ order, x ∈ e.state.containers) →
      ∃ e2, manager_loop cm topo order e cnt created = (Except.ok ⟨cnt, created⟩, e2) ∧
        e2.state.containers = e.state.containers ∧ e2.state.root = e.state.root ∧
        e2.faults = [] := by
  intro order
  induction order with
  | nil => intro e cnt created h _; exact ⟨e, rfl, rfl, rfl, h⟩
  | cons name rest ih =>
    intro e cnt created h hall
    have hname : name ∈ e.state.containers := hall name (by simp)
    have hrest : ∀ g : List ApiCall, ∀ x ∈ rest, x ∈ (addedCalls e g).state.containers := by
      intro g x hx; simpa using hall x (by simp [hx])
    by_cases hp : lookupParent topo name ∈ e.state.containers
    · rw [manager_step_exists cm topo name rest e cnt created h hp hname]
      obtain ⟨e2, heq, hc, hr, hf⟩ := ih _ cnt created (by simp [h]) (hrest _)
      exact ⟨e2, heq, by simpa using hc, by simpa using hr, hf⟩
    · rw [manager_step_parent_absent cm topo name rest e cnt created h hp]
      obtain ⟨e2, heq, hc, hr, hf⟩ := ih _ cnt created (by simp [h]) (hrest _)
      exact ⟨e2, heq, by simpa using hc, by simpa using hr, hf⟩

/-- A completed fault-free real-mode run leaves every container of the
resolved order present in the final remote state (each element is processed
after its parent is available, so it is created if absent). -/
theorem loop_run1 (topo : UserTopology) (rootName : String) :
    ∀ (pre suf : List String), Ordered topo (some rootName) pre suf →
      ∀ (e : Env) (cnt : Nat) (created : List String),
      e.faults = [] →
      rootName ∈ e.state.containers →
      (∀ y ∈ pre, y ∈ e.state.containers) →
      ∃ r e2, manager_loop false topo suf e cnt created = (Except.ok r, e2) ∧
        e2.faults = [] ∧ e2.state.root = e.state.root ∧
        (∀ x, x ∈ e.state.containers ∨ x ∈ suf → x ∈ e2.state.containers) := by
  intro pre suf hord
  induction hord with
  | nil pre =>
    intro e cnt created h _ _
    refine ⟨⟨cnt, created⟩, e, rfl, h, rfl, ?_⟩
    intro x hx
    rcases hx with hx | hx
    · exact hx
    · simp at hx
  | cons pre x suf hx htail ih =>
    intro e cnt created h hroot hpre
    have hpx : lookupParent topo x ∈ e.state.containers := by
      rcases hx with hx | hx
      · have hxeq : lookupParent topo x = rootName := by
          simpa [matchesRoot] using hx
        rw [hxeq]; exact hroot
      · exact hpre _ hx
    by_cases hcx : x ∈ e.state.containers
    · rw [manager_step_exists false topo x suf e cnt created h hpx hcx]
      have hpre2 : ∀ y ∈ pre ++ [x],
          y ∈ (addedCalls e [ApiCall.getContainerByName (lookupParent topo x),
                             ApiCall.getContainerByName x]).state.containers := by
        intro y hy
        simp only [List.mem_append, List.mem_singleton] at hy
        rcases hy with hy | hy
        · simpa using hpre y hy
        · subst hy; simpa using hcx
      obtain ⟨r, e2, heq, hf, hrt, hcov⟩ :=
        ih _ cnt created (by simp [h]) (by simpa using hroot) hpre2
      refine ⟨r, e2, heq, hf, by simpa using hrt, ?_⟩
      intro z hz
      rcases hz with hz | hz
      · exact hcov z (Or.inl (by simpa using hz))
      · simp only [List.mem_cons] at hz
        rcases hz with hz | hz
        · subst hz; exact hcov z (Or.inl (by simpa using hcx))
        · exact hcov z (Or.inr hz)
    · rw [manager_step_create_real topo x suf e cnt created h hpx hcx]
      have hpre2 : ∀ y ∈ pre ++ [x],
          y ∈ (Env.mk ⟨e.state.root, e.state.containers ++ [x]⟩ e.faults
            (e.calls ++ [ApiCall.getContainerByName (lookupParent topo x),
                         ApiCall.getContainerByName x,
                         ApiCall.getContainerByName (lookupParent topo x),
                         ApiCall.getContainerByName (lookupParent topo x),
                         ApiCall.addContainer x])).state.containers := by
        intro y hy
        simp only [List.mem_append, List.mem_singleton] at hy
        rcases hy with hy | hy
        · exact List.mem_append_left _ (hpre y hy)
        · subst hy; simp
      obtain ⟨r, e2, heq, hf, hrt, hcov⟩ :=
        ih _ (cnt + 1) (created ++ [x]) (by simpa using h)
          (by simpa using List.mem_append_left [x] hroot) hpre2
      refine ⟨r, e2, heq, hf, by simpa using hrt, ?_⟩
      intro z hz
      rcases hz with hz | hz
      · exact hcov z (Or.inl (by simpa using List.mem_append_left [x] hz))
      · simp only [List.mem_cons] at hz
        rcases hz with hz | hz
        · subst hz
          exact hcov z (Or.inl (by simp))
        · exact hcov z (Or.inr hz)

/-- A container already present remotely is never the target of an
`add_container` call and is never appended to the created list, in a
fault-free run of the loop. -/
theorem loop_no_touch (cm : Bool) (topo : UserTopology) (c : String) :
    ∀ (order : List String) (e : Env) (cnt : Nat) (created : List String)
      (r : ManagerResult) (e2 : Env),
      e.faults = [] → c ∈ e.state.containers →
      manager_loop cm topo order e cnt created = (Except.ok r, e2) →
      (ApiCall.addContainer c ∈ e2.calls → ApiCall.addContainer c ∈ e.calls) ∧
      (c ∈ r.list_new_containers → c ∈ created) := by
  intro order
  induction order with
  | nil =>
    intro e cnt created r e2 h _ hrun
    rw [manager_loop] at hrun
    simp only [Prod.mk.injEq, Except.ok.injEq] at hrun
    obtain ⟨h1, h2⟩ := hrun
    subst h2
    constructor
    · intro hx; exact hx
    · intro hx; rw [← h1] at hx; exact hx
  | cons name rest ih =>
    intro e cnt created r e2 h hc hrun
    by_cases hp : lookupParent topo name ∈ e.state.containers
    · by_cases hex : name ∈ e.state.containers
      · rw [manager_step_exists cm topo name rest e cnt created h hp hex] at hrun
        obtain ⟨h1, h2⟩ := ih _ cnt created r e2 (by simp [h]) (by simpa using hc) hrun
        refine ⟨fun hx => ?_, h2⟩
        have hmem := h1 hx
        rw [addedCalls_calls] at hmem
        rcases List.mem_append.mp hmem with hh | hh
        · exact hh
        · simp at hh
      · have hnc : name ≠ c := by
          intro hcontra; subst hcontra; exact hex hc
        have hcn : c ≠ name := hnc.symm
        cases cm
        · rw [manager_step_create_real topo name rest e cnt created h hp hex] at hrun
          obtain ⟨h1, h2⟩ := ih _ (cnt + 1) (created ++ [name]) r e2 (by simpa using h)
            (List.mem_append_left _ hc) hrun
          constructor
          · intro hx
            have hmem := h1 hx
            rcases List.mem_append.mp hmem with hh | hh
            · exact hh
            · simp [hcn] at hh
          · intro hx
            have hmem := h2 hx
            rcases List.mem_append.mp hmem with hh | hh
            · exact hh
            · simp [hcn] at hh
        · rw [manager_step_create_check topo name rest e cnt created h hp hex] at hrun
          obtain ⟨h1, h2⟩ := ih _ (cnt + 1) (created ++ [name]) r e2 (by simp [h])
            (by simpa using hc) hrun
          constructor
          · intro hx
            have hmem := h1 hx
            rw [addedCalls_calls] at hmem
            rcases List.mem_append.mp hmem with hh | hh
            · exact hh
            · simp at hh
          · intro hx
            have hmem := h2 hx
            rcases List.mem_append.mp hmem with hh | hh
            · exact hh
            · simp [hcn] at hh
    · rw [manager_step_parent_absent cm topo name rest e cnt created h hp] at hrun
      obtain ⟨h1, h2⟩ := ih _ cnt created r e2 (by simp [h]) (by simpa using hc) hrun
      refine ⟨fun hx => ?_, h2⟩
      have hmem := h1 hx
      rw [addedCalls_calls] at hmem
      rcases List.mem_append.mp hmem with hh | hh
      · exact hh
      · simp at hh

/-- Structure of the result of the loop: whatever the faults and mode, the
created list extends the accumulator by a sublist of the processed order,
and the counter advances by exactly its length. -/
theorem loop_delta (cm : Bool) (topo : UserTopology) :
    ∀ (order : List String) (e : Env) (cnt : Nat) (created : List String)
      (r : ManagerResult) (e2 : Env),
      manager_loop cm topo order e cnt created = (Except.ok r, e2) →
      ∃ d, r.list_new_containers = created ++ d ∧
        r.count_new_containers = cnt + d.length ∧ d.Sublist order := by
  intro order
  induction order with
  | nil =>
    intro e cnt created r e2 hrun
    rw [manager_loop] at hrun
    simp only [Prod.mk.injEq, Except.ok.injEq] at hrun
    obtain ⟨h1, _⟩ := hrun
    exact ⟨[], by simp [← h1], by simp [← h1], List.nil_sublist _⟩
  | cons name rest ih =>
    intro e cnt created r e2 hrun
    rw [manager_loop] at hrun
    rcases hA : is_container_exist e (lookupParent topo name) with ⟨b1, e1⟩
    rw [hA] at hrun
    cases b1
    case false =>
      dsimp only at hrun
      obtain ⟨d, h1, h2, h3⟩ := ih e1 cnt created r e2 hrun
      exact ⟨d, h1, h2, h3.cons name⟩
    case true =>
      dsimp only at hrun
      rcases hB : is_container_exist e1 name with ⟨b2, e2x⟩
      rw [hB] at hrun
      cases b2
      case true =>
        dsimp only at hrun
        obtain ⟨d, h1, h2, h3⟩ := ih e2x cnt created r e2 hrun
        exact ⟨d, h1, h2, h3.cons name⟩
      case false =>
        dsimp only at hrun
        rcases hC : container_create e2x cm name (lookupParent topo name) with ⟨res, e3⟩
        rw [hC] at hrun
        cases res with
        | error msg => dsimp only at hrun; simp at hrun
        | ok cr =>
          dsimp only at hrun
          by_cases hs : cr.success = true
          · rw [if_pos hs] at hrun
            obtain ⟨d, h1, h2, h3⟩ := ih e3 (cnt + 1) (created ++ [name]) r e2 hrun
            refine ⟨name :: d, ?_, ?_, h3.cons₂ name⟩
            · simpa [List.append_assoc] using h1
            · rw [h2]; simp only [List.length_cons]; omega
          · rw [if_neg hs] at hrun
            obtain ⟨d, h1, h2, h3⟩ := ih e3 cnt created r e2 hrun
            exact ⟨d, h1, h2, h3.cons name⟩

/-! Nontermination of the ordering resolver on an unresolvable parent. -/

theorem lcft_orphan_loop_none :
    ∀ fuel, lcft_loop orphanTopo (some "Tenant") fuel [] = none := by
  intro fuel
  induction fuel with
  | zero => rfl
  | succ n ih =>
    rw [lcft_loop]
    rw [if_pos (by decide)]
    have hpass : lcft_pass orphanTopo (some "Tenant") (orphanTopo.map Prod.fst) [] = [] := rfl
    rw [hpass]
    exact ih

theorem manager_orphan_none :
    ∀ fuel, manager_containers_create fuel false orphanTopo env0 = none := by
  intro fuel
  rw [manager_containers_create]
  have hroot : (container_get_root env0).1 = some "Tenant" := rfl
  rw [hroot]
  rw [show list_container_from_top fuel orphanTopo (some "Tenant") =
    lcft_loop orphanTopo (some "Tenant") fuel [] from rfl]
  rw [lcft_orphan_loop_none fuel]

/-! Environment evolution of the primitives under an arbitrary fault
schedule (needed for claims about what never happens, whatever the
faults). -/

theorem api_get_snd (e : Env) (n : String) :
    (api_get_container_by_name e n).2 =
      { e with faults := e.faults.tail,
               calls := e.calls ++ [ApiCall.getContainerByName n] } := by
  rw [api_get_container_by_name]
  by_cases hm : n ∈ e.state.containers <;>
    simp [hm, apply_ite Prod.snd]

theorem is_exist_snd (e : Env) (n : String) :
    (is_container_exist e n).2 =
      { e with faults := e.faults.tail,
               calls := e.calls ++ [ApiCall.getContainerByName n] } := by
  rw [is_container_exist]
  rcases hA : api_get_container_by_name e n with ⟨resp, e1⟩
  have he1 : e1 = { e with faults := e.faults.tail, calls := e.calls ++ [ApiCall.getContainerByName n] } := by
    have := api_get_snd e n
    rw [hA] at this
    exact this
  rcases resp with val | _
  · rcases val with _ | c <;> exact he1
  · exact he1

theorem get_id_snd (e : Env) (n : String) :
    (container_get_id e n).2 =
      { e with faults := e.faults.tail,
               calls := e.calls ++ [ApiCall.getContainerByName n] } := by
  rw [container_get_id]
  rcases hA : api_get_container_by_name e n with ⟨resp, e1⟩
  have he1 : e1 = { e with faults := e.faults.tail, calls := e.calls ++ [ApiCall.getContainerByName n] } := by
    have := api_get_snd e n
    rw [hA] at this
    exact this
  rcases resp with val | _
  · rcases val with _ | c <;> exact he1
  · exact he1

/-- In check mode, no execution path of `container_create` reaches
`api_add_container`: every `addContainer` entry of the resulting call trace
was already present before the call, for every fault schedule and remote
state. -/
theorem create_check_no_add (e : Env) (c p k : String)
    (hk : ApiCall.addContainer k ∈ (container_create e true c p).2.calls) :
    ApiCall.addContainer k ∈ e.calls := by
  rw [container_create] at hk
  rcases hA : is_container_exist e p with ⟨b1, e1⟩
  have he1 : e1 = { e with faults := e.faults.tail, calls := e.calls ++ [ApiCall.getContainerByName p] } := by
    have := is_exist_snd e p
    rw [hA] at this
    exact this
  rw [hA] at hk
  cases b1
  case false =>
    dsimp only at hk
    rw [he1] at hk
    rcases List.mem_append.mp hk with hh | hh
    · exact hh
    · simp at hh
  case true =>
    dsimp only at hk
    rcases hB : container_get_id e1 p with ⟨res, e2⟩
    have he2 : e2 = { e1 with faults := e1.faults.tail, calls := e1.calls ++ [ApiCall.getContainerByName p] } := by
      have := get_id_snd e1 p
      rw [hB] at this
      exact this
    rw [hB] at hk
    have hcalls : ApiCall.addContainer k ∈ e2.calls → ApiCall.addContainer k ∈ e.calls := by
      intro hx
      rw [he2] at hx
      rcases List.mem_append.mp hx with hh | hh
      · rw [he1] at hh
        rcases List.mem_append.mp hh with hg | hg
        · exact hg
        · simp at hg
      · simp at hh
    rcases res with msg | v
    · dsimp only at hk
      exact hcalls hk
    · dsimp only at hk
      rw [if_pos rfl] at hk
      exact hcalls hk

/-! Claim theorems. -/

/-- C1: the claim demands that `list_container_from_top` terminate on a
topology with an unresolvable parent and that the run fail with a
`ConfigurationError`.  The code does neither: on `{Orphan: {parent: Ghost}}`
with root `Tenant`, no pass ever appends anything, so the `while` guard
`len(result_list) < len(container_list)+1` never becomes false — the loop
runs forever for every amount of fuel, and `manager_containers_create`
(which calls the resolver after one `filter_topology` lookup) never
returns.  No `ConfigurationError` is ever signalled. -/
theorem c1_unresolvable_parent_loops_forever :
    (∀ fuel, list_container_from_top fuel orphanTopo (some "Tenant") = none) ∧
    (∀ fuel, manager_containers_create fuel false orphanTopo env0 = none) :=
  ⟨fun fuel => lcft_orphan_loop_none fuel, manager_orphan_none⟩

/-- C2 counterexample: on Scenario A input `{Fabric: {parent: Tenant},
Spines: {parent: Fabric}}` with root `Tenant`, the resolver returns
`[Fabric, Spines, Fabric, Spines]` — each container appears twice, not
exactly once, and the result is not `[Fabric, Spines]`. -/
theorem c2_counterexample :
    list_container_from_top 5 topoA (some "Tenant") =
      some ["Fabric", "Spines", "Fabric", "Spines"] ∧
    list_container_from_top 5 topoA (some "Tenant") ≠ some ["Fabric", "Spines"] ∧
    (["Fabric", "Spines", "Fabric", "Spines"] : List String).count "Fabric" = 2 := by
  refine ⟨rfl, ?_, rfl⟩
  decide

/-- C2 (amended): whenever `list_container_from_top` terminates, every
position of the returned sequence holds a container whose parent either
matches the root name or already occurs at a strictly earlier position (so
first occurrences are in topological order), but containers may appear
multiple times: on the Scenario A input the returned order is
`[Fabric, Spines, Fabric, Spines]` rather than `[Fabric, Spines]`. -/
theorem c2_parent_before_child :
    (∀ (fuel : Nat) (topo : UserTopology) (root : Option String) (l : List String),
       list_container_from_top fuel topo root = some l →
       ∀ (i : Nat) (hi : i < l.length),
         matchesRoot root (lookupParent topo (l.get ⟨i, hi⟩)) = true ∨
           lookupParent topo (l.get ⟨i, hi⟩) ∈ l.take i) ∧
    list_container_from_top 5 topoA (some "Tenant") =
      some ["Fabric", "Spines", "Fabric", "Spines"] := by
  constructor
  · intro fuel topo root l hl i hi
    have h := ordered_index topo root [] l (lcft_ordered fuel topo root l hl) i hi
    simpa using h
  · rfl

/-- C2 witness: the amended theorem applied at Scenario A, position 1 (the
first `Spines`): its parent `Fabric` occurs strictly earlier. -/
theorem c2_witness :
    list_container_from_top 5 topoA (some "Tenant") =
      some ["Fabric", "Spines", "Fabric", "Spines"] ∧
    (matchesRoot (some "Tenant")
        (lookupParent topoA
          ((["Fabric", "Spines", "Fabric", "Spines"] : List String).get ⟨1, by decide⟩)) = true ∨
      lookupParent topoA
          ((["Fabric", "Spines", "Fabric", "Spines"] : List String).get ⟨1, by decide⟩) ∈
        (["Fabric", "Spines", "Fabric", "Spines"] : List String).take 1) :=
  ⟨c2_parent_before_child.2,
   c2_parent_before_child.1 5 topoA (some "Tenant") _ c2_parent_before_child.2 1 (by decide)⟩

/-- C3: the claim says a container whose create call fails (here: both
`add_container` calls raise) is not counted and not appended.  The code
counts it anyway: with `{Fabric: {parent: Tenant}}` and `add_container`
raising on every attempt, the run reports `count_new_containers = 2` and
`list_new_containers = [Fabric, Fabric]` while the remote state still
contains only `Tenant` — `container_create` returns `success: True` at line
219 whenever the parent exists, whatever the create outcome. -/
theorem c3_failed_create_still_counted :
    (manager_containers_create 5 false topoC3 envC3).map (fun p => p.1) =
      some (Except.ok ⟨2, ["Fabric", "Fabric"]⟩) ∧
    (manager_containers_create 5 false topoC3 envC3).map (fun p => p.2.state.containers) =
      some ["Tenant"] ∧
    (manager_containers_create 5 false topoC3 envC3).map
        (fun p => p.2.calls.count (ApiCall.addContainer "Fabric")) = some 2 :=
  ⟨rfl, rfl, rfl⟩

/-- C4: the claim says every remote failure in the per-container loop is
caught and isolated.  A failure inside `container_get_id` is not: when the
`get_container_by_name` issued by `container_get_id` raises (fifth remote
call, after the existence checks succeeded), line 152 evaluates `{}['key']`
and the resulting `KeyError` propagates uncaught out of `container_create`
and aborts the whole `manager_containers_create` run — the second container
`Spines` is never processed, only five remote calls are made, and no
`add_container` call is ever issued. -/
theorem c4_keyerror_aborts_run :
    (manager_containers_create 5 false topoC4 envC4).map (fun p => p.1) =
      some (Except.error "KeyError") ∧
    (manager_containers_create 5 false topoC4 envC4).map (fun p => p.2.state.containers) =
      some ["Tenant"] ∧
    (manager_containers_create 5 false topoC4 envC4).map (fun p => p.2.calls) =
      some [ApiCall.filterTopology "root", ApiCall.getContainerByName "Tenant",
            ApiCall.getContainerByName "Fabric", ApiCall.getContainerByName "Tenant",
            ApiCall.getContainerByName "Tenant"] :=
  ⟨rfl, rfl, rfl⟩

/-- C5: the claim says the process fail-fasts via `fail_json` exactly when
the input fails schema validation (or a library is missing).  The code has
the check inverted in `cv_device_v3.py` line 139: `if user_topology.is_valid`
triggers the "input is not valid" `fail_json` precisely when the input IS
valid, and an invalid input proceeds past validation.  In
`cv_container_v3.py`, a failed validation raises `KeyError` on line 302
(undeclared parameter `configlets`) before `fail_json` is reached. -/
theorem c5_validation_gate_inverted :
    cv_device_v3_main true true false true =
      MainOutcome.failJson "Error, your input is not valid against current schema" ∧
    cv_device_v3_main true true false false = MainOutcome.proceeded ∧
    cv_container_v3_main true true false = Except.error "KeyError" ∧
    cv_container_v3_main true true true = Except.ok MainOutcome.proceeded :=
  ⟨rfl, rfl, rfl, rfl⟩

/-- C6: idempotence.  For a fault-free environment whose root container
exists remotely, if a real-mode `manager_containers_create` run completes
with result `r1` and final environment `e1`, then running it again from `e1`
completes and reports `count_new_containers = 0`. -/
theorem c6_second_run_creates_nothing (fuel : Nat) (topo : UserTopology) (e : Env)
    (r1 : ManagerResult) (e1 : Env)
    (hfault : e.faults = [])
    (hroot : e.state.root ∈ e.state.containers)
    (hrun1 : manager_containers_create fuel false topo e = some (Except.ok r1, e1)) :
    ∃ r2 e2, manager_containers_create fuel false topo e1 = some (Except.ok r2, e2) ∧
      r2.count_new_containers = 0 := by
  rw [manager_containers_create, get_root_of_nil e hfault] at hrun1
  dsimp only at hrun1
  rcases hord : list_container_from_top fuel topo (some e.state.root) with _ | order
  · rw [hord] at hrun1; simp at hrun1
  · rw [hord] at hrun1
    dsimp only at hrun1
    have hloopeq := Option.some.inj hrun1
    have hOrd := lcft_ordered fuel topo (some e.state.root) order hord
    obtain ⟨r, e2x, heq, hf, hrt, hcov⟩ :=
      loop_run1 topo e.state.root [] order hOrd
        (addedCalls e [ApiCall.filterTopology "root"]) 0 []
        (by simp [hfault]) (by simpa using hroot) (by intro y hy; simp at hy)
    have hpair : ((Except.ok r : Except String ManagerResult), e2x) = (Except.ok r1, e1) :=
      heq.symm.trans hloopeq
    injection hpair with hA hB
    rw [hB] at hf hrt hcov
    rw [manager_containers_create, get_root_of_nil e1 hf]
    dsimp only
    have hrt2 : e1.state.root = e.state.root := by simpa using hrt
    rw [hrt2, hord]
    dsimp only
    obtain ⟨e2f, heq2, _, _, _⟩ :=
      loop_all_present false topo order (addedCalls e1 [ApiCall.filterTopology "root"]) 0 []
        (by simp [hf]) (by intro x hx; simpa using hcov x (Or.inr hx))
    exact ⟨⟨0, []⟩, e2f, by rw [heq2], rfl⟩

/-- C6 witness: Scenario A run from the `Tenant`-only remote state, then
run again from the resulting state: the second run counts zero. -/
theorem c6_witness :
    env0.faults = [] ∧ env0.state.root ∈ env0.state.containers ∧
    (∃ r2 e2, manager_containers_create 5 false topoA c6_e1 = some (Except.ok r2, e2) ∧
      r2.count_new_containers = 0) :=
  ⟨rfl, by decide,
   c6_second_run_creates_nothing 5 topoA env0 ⟨2, ["Fabric", "Spines"]⟩ c6_e1 rfl
     (by decide) (by rfl)⟩

/-- C7: a container that already exists remotely at the start of a
fault-free run is never the target of an `add_container` call and never
contributes to `list_new_containers` (hence not to the count, which by C10
equals its length). -/
theorem c7_existing_container_untouched (fuel : Nat) (cm : Bool) (topo : UserTopology)
    (e : Env) (c : String) (r : ManagerResult) (e2 : Env)
    (hfault : e.faults = [])
    (hcallfree : ApiCall.addContainer c ∉ e.calls)
    (hexists : c ∈ e.state.containers)
    (hrun : manager_containers_create fuel cm topo e = some (Except.ok r, e2)) :
    ApiCall.addContainer c ∉ e2.calls ∧ c ∉ r.list_new_containers := by
  rw [manager_containers_create, get_root_of_nil e hfault] at hrun
  dsimp only at hrun
  rcases hord : list_container_from_top fuel topo (some e.state.root) with _ | order
  · rw [hord] at hrun; simp at hrun
  · rw [hord] at hrun
    dsimp only at hrun
    have hloopeq := Option.some.inj hrun
    obtain ⟨h1, h2⟩ := loop_no_touch cm topo c order
      (addedCalls e [ApiCall.filterTopology "root"]) 0 [] r e2
      (by simp [hfault]) (by simpa using hexists) hloopeq
    constructor
    · intro hx
      have hmem := h1 hx
      rw [addedCalls_calls] at hmem
      rcases List.mem_append.mp hmem with hh | hh
      · exact hcallfree hh
      · simp at hh
    · intro hx
      have hmem := h2 hx
      simp at hmem

/-- C7 witness: with `Fabric` pre-existing next to the root, a full run
issues no `add_container Fabric` and does not list `Fabric` as created. -/
theorem c7_witness :
    (⟨⟨"Tenant", ["Tenant", "Fabric"]⟩, [], []⟩ : Env).faults = [] ∧
    ApiCall.addContainer "Fabric" ∉ (⟨⟨"Tenant", ["Tenant", "Fabric"]⟩, [], []⟩ : Env).calls ∧
    "Fabric" ∈ (⟨⟨"Tenant", ["Tenant", "Fabric"]⟩, [], []⟩ : Env).state.containers ∧
    (ApiCall.addContainer "Fabric" ∉
        (runEnv (manager_containers_create 5 false topoA
          (⟨⟨"Tenant", ["Tenant", "Fabric"]⟩, [], []⟩ : Env))).calls ∧
      "Fabric" ∉ (⟨1, ["Spines"]⟩ : ManagerResult).list_new_containers) :=
  ⟨rfl, by decide, by decide,
   c7_existing_container_untouched 5 false topoA
     (⟨⟨"Tenant", ["Tenant", "Fabric"]⟩, [], []⟩ : Env) "Fabric" ⟨1, ["Spines"]⟩
     (runEnv (manager_containers_create 5 false topoA
       (⟨⟨"Tenant", ["Tenant", "Fabric"]⟩, [], []⟩ : Env)))
     rfl (by decide) (by decide) (by rfl)⟩

/-- C8: when the parent of the container being processed does not exist
remotely at that moment (fault-free environment), the loop iteration only
issues the one parent existence lookup, never an `add_container` for the
container, raises nothing, and continues with the remaining containers with
counter and created-list unchanged; `container_create` itself would likewise
return `success: False` after only the parent lookup. -/
theorem c8_parent_missing_silent_skip (cm : Bool) (topo : UserTopology)
    (name : String) (rest : List String) (e : Env) (cnt : Nat) (created : List String)
    (hfault : e.faults = [])
    (hmissing : lookupParent topo name ∉ e.state.containers) :
    manager_loop cm topo (name :: rest) e cnt created =
      manager_loop cm topo rest
        (addedCalls e [ApiCall.getContainerByName (lookupParent topo name)]) cnt created ∧
    container_create e cm name (lookupParent topo name) =
      (Except.ok ⟨false, TaskIds.unset, name⟩,
       addedCalls e [ApiCall.getContainerByName (lookupParent topo name)]) :=
  ⟨manager_step_parent_absent cm topo name rest e cnt created hfault hmissing,
   create_of_nil_parent_absent e cm name _ hfault hmissing⟩

/-- C8 witness: processing `Orphan` (parent `Ghost`, absent remotely)
reduces to processing the rest after a single lookup, and the create action
reports `success: False` without any create call. -/
theorem c8_witness :
    env0.faults = [] ∧ lookupParent orphanTopo "Orphan" ∉ env0.state.containers ∧
    (manager_loop false orphanTopo ["Orphan"] env0 0 [] =
        manager_loop false orphanTopo []
          (addedCalls env0 [ApiCall.getContainerByName (lookupParent orphanTopo "Orphan")])
          0 [] ∧
      container_create env0 false "Orphan" (lookupParent orphanTopo "Orphan") =
        (Except.ok ⟨false, TaskIds.unset, "Orphan"⟩,
         addedCalls env0 [ApiCall.getContainerByName (lookupParent orphanTopo "Orphan")])) :=
  ⟨rfl, by decide,
   c8_parent_missing_silent_skip false orphanTopo "Orphan" [] env0 0 [] rfl (by decide)⟩

/-- C9: in check mode `container_create` never issues `add_container`
(whatever the fault schedule and remote state); with the parent present it
still returns `success: True` with `taskIDs = UNSET` (no task ids); and the
manager loop counts such a container exactly as a real creation would —
counter incremented and name appended — without any remote create call. -/
theorem c9_check_mode_contract :
    (∀ (e : Env) (c p k : String),
       ApiCall.addContainer k ∈ (container_create e true c p).2.calls →
         ApiCall.addContainer k ∈ e.calls) ∧
    (∀ (e : Env) (c p : String), e.faults = [] → p ∈ e.state.containers →
       (container_create e true c p).1 = Except.ok ⟨true, TaskIds.unset, c⟩) ∧
    (∀ (topo : UserTopology) (name : String) (rest : List String) (e : Env)
       (cnt : Nat) (created : List String),
       e.faults = [] → lookupParent topo name ∈ e.state.containers →
       name ∉ e.state.containers →
       manager_loop true topo (name :: rest) e cnt created =
         manager_loop true topo rest
           (addedCalls e [ApiCall.getContainerByName (lookupParent topo name),
                          ApiCall.getContainerByName name,
                          ApiCall.getContainerByName (lookupParent topo name),
                          ApiCall.getContainerByName (lookupParent topo name)])
           (cnt + 1) (created ++ [name])) := by
  refine ⟨create_check_no_add, ?_, manager_step_create_check⟩
  intro e c p hf hp
  rw [create_of_nil_check e c p hf hp]

/-- C9 witness: the three parts of the check-mode contract at a concrete
environment (one stale `addContainer` entry pre-seeded in the trace to
exercise the first part). -/
theorem c9_witness :
    ApiCall.addContainer "Spines" ∈
      (container_create (⟨⟨"Tenant", ["Tenant"]⟩, [], [ApiCall.addContainer "Spines"]⟩ : Env)
        true "Fabric" "Tenant").2.calls ∧
    ApiCall.addContainer "Spines" ∈
      (⟨⟨"Tenant", ["Tenant"]⟩, [], [ApiCall.addContainer "Spines"]⟩ : Env).calls ∧
    (container_create env0 true "Fabric" "Tenant").1 =
      Except.ok ⟨true, TaskIds.unset, "Fabric"⟩ ∧
    manager_loop true topoC3 ["Fabric"] env0 0 [] =
      manager_loop true topoC3 []
        (addedCalls env0 [ApiCall.getContainerByName (lookupParent topoC3 "Fabric"),
                          ApiCall.getContainerByName "Fabric",
                          ApiCall.getContainerByName (lookupParent topoC3 "Fabric"),
                          ApiCall.getContainerByName (lookupParent topoC3 "Fabric")])
        (0 + 1) ([] ++ ["Fabric"]) :=
  ⟨by decide,
   c9_check_mode_contract.1 (⟨⟨"Tenant", ["Tenant"]⟩, [], [ApiCall.addContainer "Spines"]⟩ : Env)
     "Fabric" "Tenant" "Spines" (by decide),
   c9_check_mode_contract.2.1 env0 "Fabric" "Tenant" rfl (by decide),
   c9_check_mode_contract.2.2 topoC3 "Fabric" [] env0 0 [] rfl (by decide) (by decide)⟩

/-- C10: whenever `manager_containers_create` completes without an
exception, `count_new_containers` equals the length of
`list_new_containers` (and is trivially nonnegative), every listed name is a
key of the input topology, and the list is a sublist of the resolved
processing order (names appear in processing order). -/
theorem c10_result_invariants (fuel : Nat) (cm : Bool) (topo : UserTopology)
    (e : Env) (r : ManagerResult) (e2 : Env)
    (hrun : manager_containers_create fuel cm topo e = some (Except.ok r, e2)) :
    r.count_new_containers = r.list_new_containers.length ∧
    0 ≤ r.count_new_containers ∧
    (∀ n ∈ r.list_new_containers, n ∈ topo.map Prod.fst) ∧
    ∃ order, list_container_from_top fuel topo (container_get_root e).1 = some order ∧
      r.list_new_containers.Sublist order := by
  rw [manager_containers_create] at hrun
  rcases hord : list_container_from_top fuel topo (container_get_root e).1 with _ | order
  · rw [hord] at hrun; simp at hrun
  · rw [hord] at hrun
    dsimp only at hrun
    have hloopeq := Option.some.inj hrun
    obtain ⟨d, h1, h2, h3⟩ :=
      loop_delta cm topo order (container_get_root e).2 0 [] r e2 hloopeq
    have hlist : r.list_new_containers = d := by simpa using h1
    refine ⟨?_, Nat.zero_le _, ?_, order, rfl, ?_⟩
    · rw [hlist, h2]; simp
    · intro n hn
      rw [hlist] at hn
      exact lcft_subset fuel topo ((container_get_root e).1) order hord n (h3.subset hn)
    · rw [hlist]; exact h3

/-- C10 witness: the invariants instantiated on the Scenario A run. -/
theorem c10_witness :
    (⟨2, ["Fabric", "Spines"]⟩ : ManagerResult).count_new_containers =
      (⟨2, ["Fabric", "Spines"]⟩ : ManagerResult).list_new_containers.length ∧
    0 ≤ (⟨2, ["Fabric", "Spines"]⟩ : ManagerResult).count_new_containers ∧
    (∀ n ∈ (⟨2, ["Fabric", "Spines"]⟩ : ManagerResult).list_new_containers,
        n ∈ topoA.map Prod.fst) ∧
    ∃ order, list_container_from_top 5 topoA (container_get_root env0).1 = some order ∧
      (⟨2, ["Fabric", "Spines"]⟩ : ManagerResult).list_new_containers.Sublist order :=
  c10_result_invariants 5 false topoA env0 ⟨2, ["Fabric", "Spines"]⟩ c6_e1 (by rfl)

end AnsibleCvp
